import Mathlib

/-!
# Azure helper lookups: a shallow embedding

The Go package `azure` (files `accounts.go`, `tokens.go`, `keys.go`, `auth.go`)
resolves credentials, a subscription, a resource group and a key by calling a
cloud provider's management API.  Every network call is taken here as an input
(the value and error the call handed back); the control flow around the calls,
the guards, the indices and the error texts are those of the Go source.
-/

namespace AzureHelpers

/-! ## Go values -/

/-- A Go `error`, carried by the text its `Error()` method yields. `none` plays `nil`. -/
abbrev GoError := String

/-- What a Go function of result type `(α, error)` does: it hands back a pair, or
the goroutine panics (index out of range, nil dereference). -/
inductive Outcome (α : Type) where
  | returned (val : α) (err : Option GoError)
  | panicked (reason : String)
  deriving DecidableEq, Repr

/-- Run-time text of a failed index expression `xs[i]`. -/
def indexPanic (i len : Nat) : String :=
  "runtime error: index out of range [" ++ toString i ++ "] with length " ++ toString len

/-- Run-time text of a failed pointer dereference. -/
def nilPanic : String :=
  "runtime error: invalid memory address or nil pointer dereference"

/-- Pieces of `s` between occurrences of the separator, as `strings.Split` of the Go
standard library yields them for a one-character separator: `k` separators give
`k + 1` pieces, empty pieces included. -/
def splitChars (sep : Char) : List Char → List (List Char)
  | [] => [[]]
  | c :: cs =>
    if c = sep then [] :: splitChars sep cs
    else
      match splitChars sep cs with
      | [] => [[c]]
      | p :: ps => (c :: p) :: ps

/-- Go's `strings.Split(s, "/")`. -/
def stringsSplitSlash (s : String) : List String :=
  (splitChars '/' s.data).map String.mk

/-! ## SDK types and calls

The SDK is not part of the repository.  Its records are reduced to the fields the
helpers read, with `*T` fields as `Option T`; its calls are fields of a provider
record, each giving the value and error the call hands back. -/

/-- An `autorest.Authorizer`: an opaque capability. -/
structure Authorizer where
  token : String
  deriving DecidableEq, Repr

/-- The fields of `azure.PublicCloud` the helpers read. -/
structure Environment where
  ResourceManagerEndpoint : String
  ActiveDirectoryEndpoint : String
  deriving DecidableEq, Repr

/-- The SDK's `auth.ClientCredentialsConfig`. -/
structure ClientCredentialsConfig where
  ClientID : String
  ClientSecret : String
  TenantID : String
  Resource : String
  AADEndpoint : String
  deriving DecidableEq, Repr

/-- The SDK's storage `Account`, reduced to the two fields read; both are `*string`. -/
structure Account where
  Name : Option String
  ID : Option String
  deriving DecidableEq, Repr

/-- The SDK's `AccountListResult`: `Value` is a `*[]Account`. -/
structure AccountListResult where
  Value : Option (List Account)
  deriving DecidableEq, Repr

/-- The SDK's `AccountKey`: `Value` is a `*string`. -/
structure AccountKey where
  Value : Option String
  deriving DecidableEq, Repr

/-- The SDK's `AccountListKeysResult`: `Keys` is a `*[]AccountKey`. -/
structure AccountListKeysResult where
  Keys : Option (List AccountKey)
  deriving DecidableEq, Repr

/-- The SDK's `subscriptions.Subscription`: `SubscriptionID` is a `*string`. -/
structure Subscription where
  SubscriptionID : Option String
  deriving DecidableEq, Repr

/-- The SDK's `web.Site`, reduced to the fields read; both are `*string`. -/
structure Site where
  Name : Option String
  ResourceGroup : Option String
  deriving DecidableEq, Repr

/-- The SDK's `web.HostKeys`: `MasterKey` is a `*string`. -/
structure HostKeys where
  MasterKey : Option String
  deriving DecidableEq, Repr

/-- The SDK's `storage.BlobStorageClient`; its zero value is `nilClient`. -/
structure BlobStorageClient where
  accountName : String
  accountKey : String
  deriving DecidableEq, Repr

/-- An SDK call made while a helper runs; helpers that report a trace list these in
the order made. -/
inductive Call where
  | authorizerFromCLI
  | authorizerFromEnv
  | listSubscriptions
  | listAccounts
  | listKeys
  | newBasicClient
  | listApps
  | nextPage
  | listHostKeys
  | servicePrincipalToken
  | ensureFresh
  deriving DecidableEq, Repr

/-! ## `accounts.go` -/

namespace Accounts

/-- Go's `getAccountKey`; `listing` is what `accountsClient.ListKeys` handed back. -/
def getAccountKey (listing : Except GoError AccountListKeysResult) : Outcome String :=
  match listing with
  | .error err => .returned "" (some err)
  | .ok listKeysResult =>
    match listKeysResult.Keys with
    | none => .panicked nilPanic
    | some keys =>
      if keys.length = 0 then
        .returned "" (some "failed to list keys in storage acc")
      else
        match keys.get? 0 with
        | none => .panicked (indexPanic 0 keys.length)
        | some k =>
          match k.Value with
          | none => .panicked nilPanic
          | some key => .returned key none

/-- Body of the `for _, val := range *result.Value` loop of `findAccountRG`. -/
def findAccountRG.scan (accountName : String) : List Account → Outcome String
  | [] => .returned "" (some "not found")
  | val :: rest =>
    match val.Name with
    | none => .panicked nilPanic
    | some name =>
      if name = accountName then
        match val.ID with
        | none => .panicked nilPanic
        | some id =>
          let idparts := stringsSplitSlash id
          if idparts.length < 4 then
            .returned "" (some "invalid account id")
          else
            match idparts.get? 4 with
            | some rg => .returned rg none
            | none => .panicked (indexPanic 4 idparts.length)
      else findAccountRG.scan accountName rest

/-- Go's `findAccountRG`; `listing` is what `accountsClient.List(ctx)` handed back. -/
def findAccountRG (listing : Except GoError AccountListResult) (accountName : String) :
    Outcome String :=
  match listing with
  | .error err => .returned "" (some ("list blob accounts err, " ++ err))
  | .ok result =>
    match result.Value with
    | none => .panicked nilPanic
    | some accounts => findAccountRG.scan accountName accounts

/-- Go's `inferSubscriptionIDFromUser`; `listing` is what `subscriptionClient.List`
handed back, the page reduced to its `Values()`. -/
def inferSubscriptionIDFromUser (listing : Except GoError (List Subscription)) :
    Outcome String :=
  match listing with
  | .error err => .returned "" (some ("failed to list subscriptions, " ++ err))
  | .ok subs =>
    if subs.length < 1 then
      .returned "" (some "logged in user does not have access to any subscriptions")
    else
      match subs with
      | sub :: _ =>
        match sub.SubscriptionID with
        | none => .panicked nilPanic
        | some id => .returned id none
      | [] => .returned "" (some "subscription id not found")

/-- The SDK calls `getAccountClient` makes, with the process environment.
`NewBasicClient` stands for `storage.NewBasicClient` followed, when it succeeds, by
`client.GetBlobService()`. -/
structure Provider where
  getenv : String → String
  PublicCloud : Environment
  NewAuthorizerFromCLIWithResource : String → Except GoError Authorizer
  cfgAuthorizer : ClientCredentialsConfig → Except GoError Authorizer
  subscriptionsList : Authorizer → Except GoError (List Subscription)
  accountsList : Authorizer → String → Except GoError AccountListResult
  accountsListKeys : Authorizer → String → String → String →
    Except GoError AccountListKeysResult
  NewBasicClient : String → String → Except GoError BlobStorageClient

/-- The zero `storage.BlobStorageClient`. -/
def nilClient : BlobStorageClient := ⟨"", ""⟩

/-- Lines 48-72 of `getAccountClient`: what follows once an authorizer is in hand.
The trace so far is extended by the calls made. -/
def getAccountClient.withAuthorizer (p : Provider) (accountName : String)
    (authorizer : Authorizer) (trace : List Call) :
    Outcome BlobStorageClient × List Call :=
  match inferSubscriptionIDFromUser (p.subscriptionsList authorizer) with
  | .panicked r => (.panicked r, trace ++ [.listSubscriptions])
  | .returned _ (some err) =>
    (.returned nilClient
      (some ("could not infer subscription id for logged in user, " ++ err)),
     trace ++ [.listSubscriptions])
  | .returned subID none =>
    match findAccountRG (p.accountsList authorizer subID) accountName with
    | .panicked r => (.panicked r, trace ++ [.listSubscriptions, .listAccounts])
    | .returned _ (some err) =>
      (.returned nilClient (some ("could not find storage account, " ++ err)),
       trace ++ [.listSubscriptions, .listAccounts])
    | .returned rg none =>
      match getAccountKey (p.accountsListKeys authorizer subID rg accountName) with
      | .panicked r =>
        (.panicked r, trace ++ [.listSubscriptions, .listAccounts, .listKeys])
      | .returned _ (some err) =>
        (.returned nilClient (some err),
         trace ++ [.listSubscriptions, .listAccounts, .listKeys])
      | .returned accountKey none =>
        match p.NewBasicClient accountName accountKey with
        | .error err =>
          (.returned nilClient (some ("client, " ++ err)),
           trace ++ [.listSubscriptions, .listAccounts, .listKeys, .newBasicClient])
        | .ok client =>
          (.returned client none,
           trace ++ [.listSubscriptions, .listAccounts, .listKeys, .newBasicClient])

/-- Go's `getAccountClient`, with the trace of SDK calls it made. -/
def getAccountClient (p : Provider) (accountName : String) :
    Outcome BlobStorageClient × List Call :=
  match p.NewAuthorizerFromCLIWithResource p.PublicCloud.ResourceManagerEndpoint with
  | .ok authorizer =>
    getAccountClient.withAuthorizer p accountName authorizer [.authorizerFromCLI]
  | .error _ =>
    let cfg : ClientCredentialsConfig :=
      { ClientID := p.getenv "AZURE_CLIENT_ID"
        ClientSecret := p.getenv "AZURE_CLIENT_SECRET"
        TenantID := p.getenv "AZURE_TENANT_ID"
        Resource := p.PublicCloud.ResourceManagerEndpoint
        AADEndpoint := p.PublicCloud.ActiveDirectoryEndpoint }
    match p.cfgAuthorizer cfg with
    | .error err =>
      (.returned nilClient (some ("auth initialization failed, " ++ err)),
       [.authorizerFromCLI, .authorizerFromEnv])
    | .ok authorizer =>
      getAccountClient.withAuthorizer p accountName authorizer
        [.authorizerFromCLI, .authorizerFromEnv]

end Accounts

/-! ## `tokens.go` -/

namespace Tokens

/-- One HTTP round trip of `tokens.go`: the errors of `http.NewRequestWithContext`
and `http.DefaultClient.Do`, and what `json.NewDecoder(resp.Body).Decode` made of the
body, an error or the filled `jsonResp`. -/
structure Exchange (β : Type) where
  newRequest : Option GoError
  send : Option GoError
  decode : Except GoError β

/-- One element of `jsonResp.Value` in `findResourceGroup`. -/
structure AccountEntry where
  ID : String
  Name : String
  deriving DecidableEq, Repr

/-- One element of `jsonResp.Value` in `findSubscriptionID`. -/
structure SubscriptionEntry where
  SubscriptionID : String
  deriving DecidableEq, Repr

/-- Body of the `for _, val := range jsonResp.Value` loop of `findResourceGroup`. -/
def findResourceGroup.scan (accountName : String) : List AccountEntry → Outcome String
  | [] => .returned "" (some "coult not find storage account")
  | val :: rest =>
    if val.Name = accountName then
      let parts := stringsSplitSlash val.ID
      if parts.length < 4 then
        .returned "" (some "failed to parse account resource name")
      else
        match parts.get? 3 with
        | some rg => .returned rg none
        | none => .panicked (indexPanic 3 parts.length)
    else findResourceGroup.scan accountName rest

/-- Go's `findResourceGroup` of `tokens.go`. -/
def findResourceGroup (http : Exchange (List AccountEntry)) (accountName : String) :
    Outcome String :=
  match http.newRequest with
  | some err => .returned "" (some err)
  | none =>
    match http.send with
    | some err => .returned "" (some err)
    | none =>
      match http.decode with
      | .error err => .returned "" (some err)
      | .ok value => findResourceGroup.scan accountName value

/-- Go's `findSubscriptionID` of `tokens.go`. -/
def findSubscriptionID (http : Exchange (List SubscriptionEntry)) : Outcome String :=
  match http.newRequest with
  | some err => .returned "" (some err)
  | none =>
    match http.send with
    | some err => .returned "" (some err)
    | none =>
      match http.decode with
      | .error err => .returned "" (some err)
      | .ok value =>
        if value.length = 0 then
          .returned "" (some "no subscriptions available for service principal")
        else
          match value.get? 0 with
          | some sub => .returned sub.SubscriptionID none
          | none => .panicked (indexPanic 0 value.length)

/-- An `adal.ServicePrincipalToken` as `maybeGetTokenFromEnv` uses it: the error of
`EnsureFresh()` and the text `OAuthToken()` gives afterwards. -/
structure ServicePrincipalToken where
  EnsureFresh : Option GoError
  OAuthToken : String
  deriving DecidableEq, Repr

/-- The three variables `maybeGetTokenFromEnv` tests, in the order tested. -/
def requiredEnv : List String :=
  ["AZURE_CLIENT_ID", "AZURE_CLIENT_SECRET", "AZURE_TENANT_ID"]

/-- The `for _, envName := range` loop of `maybeGetTokenFromEnv`: the error of the first
name whose value is empty, if any. -/
def maybeGetTokenFromEnv.check (getenv : String → String) : List String → Option GoError
  | [] => none
  | envName :: rest =>
    if getenv envName = "" then
      some ("azure token from env failed, " ++ envName ++ " is unset")
    else maybeGetTokenFromEnv.check getenv rest

/-- Go's `maybeGetTokenFromEnv`, with the trace of SDK calls it made. `getenv` is
`os.Getenv` (an unset variable reads as `""`), `spt` is `cfg.ServicePrincipalToken()`. -/
def maybeGetTokenFromEnv (getenv : String → String) (PublicCloud : Environment)
    (spt : ClientCredentialsConfig → Except GoError ServicePrincipalToken) :
    Outcome String × List Call :=
  match maybeGetTokenFromEnv.check getenv requiredEnv with
  | some err => (.returned "" (some err), [])
  | none =>
    let cfg : ClientCredentialsConfig :=
      { ClientID := getenv "AZURE_CLIENT_ID"
        ClientSecret := getenv "AZURE_CLIENT_SECRET"
        TenantID := getenv "AZURE_TENANT_ID"
        Resource := PublicCloud.ResourceManagerEndpoint
        AADEndpoint := PublicCloud.ActiveDirectoryEndpoint }
    match spt cfg with
    | .error err => (.returned "" (some err), [.servicePrincipalToken])
    | .ok token =>
      match token.EnsureFresh with
      | some err => (.returned "" (some err), [.servicePrincipalToken, .ensureFresh])
      | none => (.returned token.OAuthToken none, [.servicePrincipalToken, .ensureFresh])

end Tokens

/-! ## `keys.go` -/

namespace Keys

/-- Go's `findSubscriptionID` of `keys.go`; `listing` is what `subscriptionClient.List`
handed back, the page reduced to its `Values()`. -/
def findSubscriptionID (listing : Except GoError (List Subscription)) : Outcome String :=
  match listing with
  | .error err => .returned "" (some ("failed to list subscriptions, " ++ err))
  | .ok subs =>
    if subs.length < 1 then
      .returned "" (some "logged in user does not have access to any subscriptions")
    else
      match subs with
      | sub :: _ =>
        match sub.SubscriptionID with
        | none => .panicked nilPanic
        | some id => .returned id none
      | [] => .returned "" (some "subscription id not found")

/-- The SDK's `web.AppCollectionPage` as `findSite` uses it, over page states `σ`:
the sites of the current page, whether the enumeration goes on, and the advance to
the next page, which fails with an error or gives the new state. -/
structure Pager (σ : Type) where
  Values : σ → List Site
  NotDone : σ → Bool
  NextWithContext : σ → Except GoError σ

/-- Body of the `for _, site := range apps.Values()` loop of `findSite`: `none` when
the page is scanned through without a match, else what the `return` (or a nil
dereference) inside the loop does. -/
def findSite.scan (name : String) : List Site → Option (Outcome (Option Site))
  | [] => none
  | site :: rest =>
    match site.Name with
    | none => some (.panicked nilPanic)
    | some n =>
      if n = name then some (.returned (some site) none)
      else findSite.scan name rest

/-- The outer `for { ... }` loop of `findSite` from page state `apps`, having called
`NextWithContext` `fetched` times so far.  The loop has no bound in the source; here
it runs for at most `fuel` pages, and the result is `none` when they do not suffice.
The second component counts the `NextWithContext` calls made. -/
def findSite.loop {σ : Type} (P : Pager σ) (name : String) :
    Nat → σ → Nat → Option (Outcome (Option Site)) × Nat
  | 0, _, fetched => (none, fetched)
  | fuel + 1, apps, fetched =>
    match findSite.scan name (P.Values apps) with
    | some out => (some out, fetched)
    | none =>
      if !P.NotDone apps then
        (some (.returned none (some "site not found")), fetched)
      else
        match P.NextWithContext apps with
        | .error err =>
          (some (.returned none (some ("failed fetch next page of web apps, " ++ err))),
            fetched + 1)
        | .ok apps' => findSite.loop P name fuel apps' (fetched + 1)

/-- Go's `findSite`, with the number of `NextWithContext` calls it made; `listing` is
what `appsClient.List(ctx)` handed back. -/
def findSite {σ : Type} (P : Pager σ) (fuel : Nat) (listing : Except GoError σ)
    (name : String) : Option (Outcome (Option Site)) × Nat :=
  match listing with
  | .error err => (some (.returned none (some ("failed to list web apps, " ++ err))), 0)
  | .ok apps => findSite.loop P name fuel apps 0

/-- The SDK calls `getMasterKey` makes. -/
structure Provider (σ : Type) where
  NewAuthorizerFromCLI : Except GoError Authorizer
  NewAuthorizerFromEnvironment : Except GoError Authorizer
  subscriptionsList : Authorizer → Except GoError (List Subscription)
  pager : Pager σ
  appsList : Authorizer → String → Except GoError σ
  appsListHostKeys : Authorizer → String → String → String → Except GoError HostKeys

/-- Lines 23-40 of `getMasterKey`: what follows once an authorizer is in hand. -/
def getMasterKey.withAuthorizer {σ : Type} (p : Provider σ) (fuel : Nat)
    (appName : String) (authorizer : Authorizer) (trace : List Call) :
    Option (Outcome String) × List Call :=
  match findSubscriptionID (p.subscriptionsList authorizer) with
  | .panicked r => (some (.panicked r), trace ++ [.listSubscriptions])
  | .returned _ (some err) =>
    (some (.returned ""
      (some ("failed to infer subscription ID based on logged in user, " ++ err))),
      trace ++ [.listSubscriptions])
  | .returned subscriptionID none =>
    match findSite p.pager fuel (p.appsList authorizer subscriptionID) appName with
    | (none, fetched) =>
      (none, trace ++ [.listSubscriptions, .listApps]
        ++ List.replicate fetched Call.nextPage)
    | (some (.panicked r), fetched) =>
      (some (.panicked r), trace ++ [.listSubscriptions, .listApps]
        ++ List.replicate fetched Call.nextPage)
    | (some (.returned _ (some err)), fetched) =>
      (some (.returned ""
        (some ("could not find site with name " ++ appName ++ ", " ++ err))),
        trace ++ [.listSubscriptions, .listApps]
          ++ List.replicate fetched Call.nextPage)
    | (some (.returned none none), fetched) =>
      (some (.panicked nilPanic), trace ++ [.listSubscriptions, .listApps]
        ++ List.replicate fetched Call.nextPage)
    | (some (.returned (some site) none), fetched) =>
      match site.ResourceGroup, site.Name with
      | none, _ =>
        (some (.panicked nilPanic), trace ++ [.listSubscriptions, .listApps]
          ++ List.replicate fetched Call.nextPage)
      | some _, none =>
        (some (.panicked nilPanic), trace ++ [.listSubscriptions, .listApps]
          ++ List.replicate fetched Call.nextPage)
      | some rg, some siteName =>
        match p.appsListHostKeys authorizer subscriptionID rg siteName with
        | .error err =>
          (some (.returned ""
            (some ("failed to list host keys for app with name " ++ appName
              ++ ", " ++ err))),
            trace ++ [.listSubscriptions, .listApps]
              ++ List.replicate fetched Call.nextPage ++ [.listHostKeys])
        | .ok keys =>
          match keys.MasterKey with
          | none =>
            (some (.panicked nilPanic), trace ++ [.listSubscriptions, .listApps]
              ++ List.replicate fetched Call.nextPage ++ [.listHostKeys])
          | some k =>
            (some (.returned k none), trace ++ [.listSubscriptions, .listApps]
              ++ List.replicate fetched Call.nextPage ++ [.listHostKeys])

/-- Go's `getMasterKey`, with the trace of SDK calls it made; the result is `none`
when `fuel` pages do not suffice for `findSite`. -/
def getMasterKey {σ : Type} (p : Provider σ) (fuel : Nat) (appName : String) :
    Option (Outcome String) × List Call :=
  match p.NewAuthorizerFromCLI with
  | .ok authorizer =>
    getMasterKey.withAuthorizer p fuel appName authorizer [.authorizerFromCLI]
  | .error _ =>
    match p.NewAuthorizerFromEnvironment with
    | .error err =>
      (some (.returned "" (some ("auth initialization failed, " ++ err))),
        [.authorizerFromCLI, .authorizerFromEnv])
    | .ok authorizer =>
      getMasterKey.withAuthorizer p fuel appName authorizer
        [.authorizerFromCLI, .authorizerFromEnv]

end Keys

/-! ## `auth.go` -/

namespace Auth

/-- The SDK's `web.AppsClient` as `Setup` leaves it in the package variable `client`. -/
structure AppsClient where
  SubscriptionID : String
  Authorizer : Option Authorizer
  deriving DecidableEq, Repr

/-- The line `Setup` prints first when no authorizer can be built. -/
def setupHint : String :=
  "Failed to get authorizer from environment, \n check to see if you have set the correct environment variables" ++
    "AZURE_CLIENT_ID, AZURE_CLIENT_SECRET, AZURE_TENANT_ID, AZURE_SUBSCRIPTION_ID"

/-- Go's `Setup`: the new value of the package variable `client` and the lines
printed. `fromEnv` is the pair `auth.NewAuthorizerFromEnvironment()` handed back. -/
def Setup (getenv : String → String) (fromEnv : Option Authorizer × Option GoError) :
    AppsClient × List String :=
  let subscriptionID := getenv "AZURE_SUBSCRIPTION_ID"
  let printed := match fromEnv.2 with
    | some err => [setupHint, err]
    | none => []
  ({ SubscriptionID := subscriptionID, Authorizer := fromEnv.1 }, printed)

end Auth

/-! ## Sample inputs -/

/-- Modelled from the spec: the finite lazy sequence of pages of its design notes, as a
`Pager` whose state is the list of pages from the current one on. The enumeration is
not done while a further page remains, and advancing never fails. -/
def Keys.listPager : Keys.Pager (List (List Site)) where
  Values := fun s => s.headD []
  NotDone := fun s => !s.tail.isEmpty
  NextWithContext := fun s => .ok s.tail

/-- A provider for `getAccountClient` with no CLI session and no usable environment. -/
def Accounts.noCredentials : Accounts.Provider where
  getenv := fun _ => ""
  PublicCloud := ⟨"https://management.azure.com/", "https://login.microsoftonline.com/"⟩
  NewAuthorizerFromCLIWithResource := fun _ => .error "cli: no session"
  cfgAuthorizer := fun _ => .error "env: no secret"
  subscriptionsList := fun _ => .ok []
  accountsList := fun _ _ => .ok ⟨some []⟩
  accountsListKeys := fun _ _ _ _ => .ok ⟨some []⟩
  NewBasicClient := fun n k => .ok ⟨n, k⟩

/-- A provider for `getMasterKey` with no CLI session and no usable environment. -/
def Keys.noCredentials : Keys.Provider (List (List Site)) where
  NewAuthorizerFromCLI := .error "cli: no session"
  NewAuthorizerFromEnvironment := .error "env: no secret"
  subscriptionsList := fun _ => .ok []
  pager := Keys.listPager
  appsList := fun _ _ => .ok [[]]
  appsListHostKeys := fun _ _ _ _ => .ok ⟨none⟩

/-- An environment in which `AZURE_CLIENT_ID` alone is set. -/
def Tokens.onlyClientID : String → String :=
  fun n => if n = "AZURE_CLIENT_ID" then "id" else ""

/-- Three pages of web apps; two sites are named `api`, both on the second page. -/
def Keys.threePages : List (List Site) :=
  [[⟨some "web1", some "rg-a"⟩, ⟨some "web2", some "rg-a"⟩],
   [⟨some "api", some "rg-b"⟩, ⟨some "api", some "rg-c"⟩],
   [⟨some "late", some "rg-d"⟩]]

/-- One page of web apps on which a site without a name stands before the site
named `api`. -/
def Keys.namelessFirst : List (List Site) :=
  [[⟨none, some "rg-a"⟩, ⟨some "api", some "rg-b"⟩]]

/-! ## Specification-side notions -/

/-- The text `sub` occurs in the text `s`. -/
def Mentions (s sub : String) : Prop := sub.data <:+: s.data

instance (s sub : String) : Decidable (Mentions s sub) := by
  unfold Mentions; infer_instance

/-- The pager, started in state `apps`, enumerates exactly the pages `pages`, every
fetch succeeding: `pages` begins with the current page, and goes on with the pages
that `NextWithContext` gives for as long as `NotDone` holds. -/
inductive Keys.Enumerates {σ : Type} (P : Keys.Pager σ) : σ → List (List Site) → Prop where
  | last (apps : σ) (done : P.NotDone apps = false) :
      Keys.Enumerates P apps [P.Values apps]
  | more (apps apps' : σ) (pages : List (List Site)) (notDone : P.NotDone apps = true)
      (next : P.NextWithContext apps = .ok apps') (tail : Keys.Enumerates P apps' pages) :
      Keys.Enumerates P apps (P.Values apps :: pages)

/-! ## `strings.Split` -/

theorem splitChars_ne_nil (sep : Char) (s : List Char) : splitChars sep s ≠ [] := by
  induction s with
  | nil => simp [splitChars]
  | cons c cs ih =>
    unfold splitChars
    split
    · simp
    · split <;> simp

theorem splitChars_append_sep (sep : Char) (a b : List Char) (h : sep ∉ a) :
    splitChars sep (a ++ sep :: b) = a :: splitChars sep b := by
  induction a with
  | nil => simp [splitChars]
  | cons c cs ih =>
    have hc : c ≠ sep := fun e => h (by simp [e])
    have hcs : sep ∉ cs := fun e => h (by simp [e])
    simp [splitChars, hc, ih hcs]

theorem stringsSplitSlash_append (a b : String) (h : '/' ∉ a.data) :
    stringsSplitSlash (a ++ "/" ++ b) = a :: stringsSplitSlash b := by
  have e : (a ++ "/" ++ b).data = a.data ++ '/' :: b.data := by
    simp [String.data_append]
  simp [stringsSplitSlash, e, splitChars_append_sep _ _ _ h]

theorem resourceID_split (id rg rest : String)
    (hid : '/' ∉ id.data) (hrg : '/' ∉ rg.data) :
    stringsSplitSlash
        ("/subscriptions/" ++ id ++ "/resourceGroups/" ++ rg ++ "/providers/" ++ rest)
      = "" :: "subscriptions" :: id :: "resourceGroups" :: rg
          :: stringsSplitSlash ("providers/" ++ rest) := by
  have e : "/subscriptions/" ++ id ++ "/resourceGroups/" ++ rg ++ "/providers/" ++ rest
      = "" ++ "/" ++ ("subscriptions" ++ "/" ++ (id ++ "/" ++ ("resourceGroups" ++ "/"
          ++ (rg ++ "/" ++ ("providers/" ++ rest))))) := by
    apply String.ext
    simp only [String.data_append, List.append_assoc]
    rfl
  rw [e, stringsSplitSlash_append _ _ (by decide), stringsSplitSlash_append _ _ (by decide),
    stringsSplitSlash_append _ _ hid, stringsSplitSlash_append _ _ (by decide),
    stringsSplitSlash_append _ _ hrg]

/-! ## The linear scans -/

theorem Accounts.scan_skip (accountName : String) (pre rest : List Account)
    (hpre : ∀ a ∈ pre, ∃ n, a.Name = some n ∧ n ≠ accountName) :
    Accounts.findAccountRG.scan accountName (pre ++ rest)
      = Accounts.findAccountRG.scan accountName rest := by
  induction pre with
  | nil => rfl
  | cons a as ih =>
    obtain ⟨n, hn, hne⟩ := hpre a (by simp)
    have ih' := ih (fun b hb => hpre b (by simp [hb]))
    simp [Accounts.findAccountRG.scan, hn, hne, ih']

theorem Accounts.findAccountRG_scan_not_found_iff (accountName v : String) (l : List Account) :
    Accounts.findAccountRG.scan accountName l = .returned v (some "not found")
      ↔ v = "" ∧ ∀ a ∈ l, ∃ n, a.Name = some n ∧ n ≠ accountName := by
  induction l with
  | nil => simp [Accounts.findAccountRG.scan, eq_comm]
  | cons a as ih =>
    unfold Accounts.findAccountRG.scan
    cases hN : a.Name with
    | none => simp [hN]
    | some n =>
      by_cases hq : n = accountName
      · simp only [hq, if_true]
        cases hI : a.ID with
        | none => simp [hN, hq]
        | some id =>
          simp only []
          split
          · simp [hN, hq]
          · split <;> simp [hN, hq]
      · simp [hq, ih, hN]

theorem Tokens.findResourceGroup_scan_not_found_iff (accountName v : String) (l : List Tokens.AccountEntry) :
    Tokens.findResourceGroup.scan accountName l
        = .returned v (some "coult not find storage account")
      ↔ v = "" ∧ ∀ e ∈ l, e.Name ≠ accountName := by
  induction l with
  | nil => simp [Tokens.findResourceGroup.scan, eq_comm]
  | cons a as ih =>
    unfold Tokens.findResourceGroup.scan
    by_cases hq : a.Name = accountName
    · simp only [hq, if_true]
      split
      · simp [hq]
      · split <;> simp [hq]
    · simp [hq, ih]

/-! ## Resource-group extraction -/

/-- C1 (defect in the code): `findAccountRG` guards `idparts[4]` with `len(idparts) < 4`,
so an ID that splits into exactly 4 parts passes the guard. For the one-entry list
holding name `acct1` and ID `/sub/only/two` (parts `""`, `sub`, `only`, `two`) and the
query `acct1`, the call does not return "invalid account id": it panics on the index. -/
theorem findAccountRG_four_parts_panics :
    stringsSplitSlash "/sub/only/two" = ["", "sub", "only", "two"] ∧
    Accounts.findAccountRG (.ok ⟨some [⟨some "acct1", some "/sub/only/two"⟩]⟩) "acct1"
      = .panicked "runtime error: index out of range [4] with length 4" := by
  decide

/-- C2 (defect in the code): `findResourceGroup` of `tokens.go` guards with
`len(parts) < 4` and reads `parts[3]`. For the listing holding ID `/sub/only/two` under
name `acct1` and the query `acct1`, it returns the last part, `two`, with a nil error
instead of "failed to parse account resource name". -/
theorem findResourceGroup_four_parts_returns_part :
    Tokens.findResourceGroup ⟨none, none, .ok [⟨"/sub/only/two", "acct1"⟩]⟩ "acct1"
      = .returned "two" none := by
  decide

/-- C3 (defect in the code): `findResourceGroup` of `tokens.go` reads `parts[3]`, which
for an ID `/subscriptions/{id}/resourceGroups/{rg}/...` is the literal segment
`resourceGroups`; the resource group is `parts[4]`, the index `findAccountRG` reads.
On the ID of the specification's example, with query `acct1`, it returns
`resourceGroups` and not `RG1`. -/
theorem findResourceGroup_returns_literal_segment :
    Tokens.findResourceGroup
        ⟨none, none,
          .ok [⟨"/subscriptions/S/resourceGroups/RG1/providers/Microsoft.Storage/storageAccounts/acct1",
                "acct1"⟩]⟩ "acct1"
      = .returned "resourceGroups" none := by
  decide

/-- C4, as stated, fails: in the list whose first entry has no name (a nil `Name`) and
whose second, the only one named `acct1`, has the ID of the specification's example,
`findAccountRG` with the query `acct1` dereferences the nil name and panics; it does
not return `RG1`. -/
theorem findAccountRG_nameless_entry_before_match :
    Accounts.findAccountRG
        (.ok ⟨some [⟨none, none⟩,
          ⟨some "acct1",
            some "/subscriptions/S/resourceGroups/RG1/providers/Microsoft.Storage/storageAccounts/acct1"⟩]⟩)
        "acct1"
      = .panicked "runtime error: invalid memory address or nil pointer dereference" := by
  decide

/-- C4, amended: in a storage-account list whose entry named `accountName` has an ID of
the form `/subscriptions/{id}/resourceGroups/{rg}/providers/...` (`id` and `rg` path
segments, free of `/`), and in which every entry before it carries a name, different
from `accountName`, `findAccountRG` returns `rg` with a nil error, wherever the entry
stands; the entries after it are unconstrained. -/
theorem findAccountRG_returns_resource_group (pre post : List Account)
    (accountName id rg rest : String)
    (hpre : ∀ a ∈ pre, ∃ n, a.Name = some n ∧ n ≠ accountName)
    (hid : '/' ∉ id.data) (hrg : '/' ∉ rg.data) :
    Accounts.findAccountRG
        (.ok ⟨some (pre ++
          ⟨some accountName,
            some ("/subscriptions/" ++ id ++ "/resourceGroups/" ++ rg ++ "/providers/"
              ++ rest)⟩ :: post)⟩) accountName
      = .returned rg none := by
  simp [Accounts.findAccountRG, Accounts.scan_skip _ _ _ hpre, Accounts.findAccountRG.scan,
    resourceID_split id rg rest hid hrg]

/-- C4, amended, at the specification's example: the entry named `acct1` stands second of three,
its ID is `/subscriptions/S/resourceGroups/RG1/providers/Microsoft.Storage/storageAccounts/acct1`,
and the result is `RG1`. -/
theorem findAccountRG_returns_resource_group_witness :
    ("/subscriptions/" ++ "S" ++ "/resourceGroups/" ++ "RG1" ++ "/providers/"
        ++ "Microsoft.Storage/storageAccounts/acct1"
      = "/subscriptions/S/resourceGroups/RG1/providers/Microsoft.Storage/storageAccounts/acct1") ∧
    Accounts.findAccountRG
        (.ok ⟨some ([⟨some "other", some "/x"⟩] ++
          ⟨some "acct1",
            some ("/subscriptions/" ++ "S" ++ "/resourceGroups/" ++ "RG1" ++ "/providers/"
              ++ "Microsoft.Storage/storageAccounts/acct1")⟩ :: [⟨some "last", none⟩])⟩)
        "acct1"
      = .returned "RG1" none :=
  ⟨by decide,
   findAccountRG_returns_resource_group [⟨some "other", some "/x"⟩] [⟨some "last", none⟩]
    "acct1" "S" "RG1" "Microsoft.Storage/storageAccounts/acct1"
    (by decide) (by decide) (by decide)⟩

/-- C5, as stated, fails: in the one-entry listing whose entry has no name (a nil `Name`),
no entry's name equals the query `acct1`, yet `findAccountRG` does not return "not
found": it panics on the nil dereference. The same holds when the result's `Value`
itself is nil. -/
theorem findAccountRG_nameless_entry_not_found :
    (∀ a ∈ [(⟨none, some "/x"⟩ : Account)], a.Name ≠ some "acct1") ∧
    Accounts.findAccountRG (.ok ⟨some [⟨none, some "/x"⟩]⟩) "acct1"
      = .panicked "runtime error: invalid memory address or nil pointer dereference" ∧
    Accounts.findAccountRG (.ok ⟨none⟩) "acct1"
      = .panicked "runtime error: invalid memory address or nil pointer dereference" := by
  decide

/-- C5, amended: on a listing, `findAccountRG` returns the error "not found", and
`findResourceGroup` the error "coult not find storage account", exactly when every
entry carries a name and that name differs from the query (string equality,
case-sensitive); the value returned with that error is then the empty string. So
neither returns its not-found error when some entry's name equals the query, and both
return it on the empty listing. -/
theorem not_found_iff_no_name_matches (accounts : List Account)
    (entries : List Tokens.AccountEntry) (accountName v : String) :
    (Accounts.findAccountRG (.ok ⟨some accounts⟩) accountName
        = .returned v (some "not found")
      ↔ v = "" ∧ ∀ a ∈ accounts, ∃ n, a.Name = some n ∧ n ≠ accountName) ∧
    (Tokens.findResourceGroup ⟨none, none, .ok entries⟩ accountName
        = .returned v (some "coult not find storage account")
      ↔ v = "" ∧ ∀ e ∈ entries, e.Name ≠ accountName) :=
  ⟨by simpa [Accounts.findAccountRG] using Accounts.findAccountRG_scan_not_found_iff accountName v accounts,
   by simpa [Tokens.findResourceGroup] using Tokens.findResourceGroup_scan_not_found_iff accountName v entries⟩

/-! ## First subscription, first key -/

/-- C6: on a listed sequence of subscriptions, `inferSubscriptionIDFromUser` and the two
`findSubscriptionID` return the ID of the head of the sequence, in the order given, with
a nil error; on the empty sequence each returns the empty string with an error. -/
theorem first_subscription_is_returned (id : String) (rest : List Subscription)
    (rest' : List Tokens.SubscriptionEntry) :
    Accounts.inferSubscriptionIDFromUser (.ok (⟨some id⟩ :: rest)) = .returned id none ∧
    Keys.findSubscriptionID (.ok (⟨some id⟩ :: rest)) = .returned id none ∧
    Tokens.findSubscriptionID ⟨none, none, .ok (⟨id⟩ :: rest')⟩ = .returned id none ∧
    Accounts.inferSubscriptionIDFromUser (.ok [])
      = .returned "" (some "logged in user does not have access to any subscriptions") ∧
    Keys.findSubscriptionID (.ok [])
      = .returned "" (some "logged in user does not have access to any subscriptions") ∧
    Tokens.findSubscriptionID ⟨none, none, .ok []⟩
      = .returned "" (some "no subscriptions available for service principal") := by
  simp [Accounts.inferSubscriptionIDFromUser, Keys.findSubscriptionID,
    Tokens.findSubscriptionID]

/-- C7: `getAccountKey` returns the value of the first key of the listed collection
with a nil error when the collection is non-empty, the error "failed to list keys in
storage acc" with the empty string when it is empty, and the listing call's own error
with the empty string when that call fails. -/
theorem getAccountKey_first_key (key err : String) (rest : List AccountKey) :
    Accounts.getAccountKey (.ok ⟨some (⟨some key⟩ :: rest)⟩) = .returned key none ∧
    Accounts.getAccountKey (.ok ⟨some []⟩)
      = .returned "" (some "failed to list keys in storage acc") ∧
    Accounts.getAccountKey (.error err) = .returned "" (some err) := by
  simp [Accounts.getAccountKey]

/-! ## Credential fallback -/

theorem Accounts.getAccountClient_rest_trace (p : Accounts.Provider) (accountName : String)
    (authorizer : Authorizer) (trace : List Call) :
    Call.authorizerFromEnv ∈
        (Accounts.getAccountClient.withAuthorizer p accountName authorizer trace).2
      ↔ Call.authorizerFromEnv ∈ trace := by
  unfold Accounts.getAccountClient.withAuthorizer
  repeat' split
  all_goals simp

theorem Keys.getMasterKey_rest_trace {σ : Type} (p : Keys.Provider σ) (fuel : Nat)
    (appName : String) (authorizer : Authorizer) (trace : List Call) :
    Call.authorizerFromEnv ∈
        (Keys.getMasterKey.withAuthorizer p fuel appName authorizer trace).2
      ↔ Call.authorizerFromEnv ∈ trace := by
  unfold Keys.getMasterKey.withAuthorizer
  repeat' split
  all_goals simp

/-- C8, as stated, fails: with a CLI failure "cli: no session" and an environment failure
"env: no secret", `getAccountClient` and `getMasterKey` return the error
"auth initialization failed, env: no secret", in which the CLI reason does not occur. -/
theorem auth_error_omits_cli_reason :
    (Accounts.getAccountClient Accounts.noCredentials "acct1").1
      = .returned Accounts.nilClient (some "auth initialization failed, env: no secret") ∧
    (Keys.getMasterKey Keys.noCredentials 0 "app1").1
      = some (.returned "" (some "auth initialization failed, env: no secret")) ∧
    ¬ Mentions "auth initialization failed, env: no secret" "cli: no session" := by
  decide

/-- C8, amended: in `getAccountClient` and `getMasterKey` the environment constructor is
called if and only if the CLI-session constructor fails; when both fail, the call
returns the zero value with the error "auth initialization failed, " followed by the
environment attempt's failure reason, which it therefore contains. The CLI attempt's
reason is dropped. -/
theorem env_fallback_iff_cli_fails {σ : Type} (p : Accounts.Provider)
    (k : Keys.Provider σ) (fuel : Nat) (accountName appName : String) :
    (Call.authorizerFromEnv ∈ (Accounts.getAccountClient p accountName).2
      ↔ ∃ e, p.NewAuthorizerFromCLIWithResource p.PublicCloud.ResourceManagerEndpoint
          = .error e) ∧
    (Call.authorizerFromEnv ∈ (Keys.getMasterKey k fuel appName).2
      ↔ ∃ e, k.NewAuthorizerFromCLI = .error e) ∧
    (∀ e₁ e₂,
      p.NewAuthorizerFromCLIWithResource p.PublicCloud.ResourceManagerEndpoint = .error e₁ →
      p.cfgAuthorizer
        { ClientID := p.getenv "AZURE_CLIENT_ID"
          ClientSecret := p.getenv "AZURE_CLIENT_SECRET"
          TenantID := p.getenv "AZURE_TENANT_ID"
          Resource := p.PublicCloud.ResourceManagerEndpoint
          AADEndpoint := p.PublicCloud.ActiveDirectoryEndpoint } = .error e₂ →
      Accounts.getAccountClient p accountName
        = (.returned Accounts.nilClient (some ("auth initialization failed, " ++ e₂)),
            [.authorizerFromCLI, .authorizerFromEnv])) ∧
    (∀ e₁ e₂, k.NewAuthorizerFromCLI = .error e₁ →
      k.NewAuthorizerFromEnvironment = .error e₂ →
      Keys.getMasterKey k fuel appName
        = (some (.returned "" (some ("auth initialization failed, " ++ e₂))),
            [.authorizerFromCLI, .authorizerFromEnv])) ∧
    (∀ e₂ : String, Mentions ("auth initialization failed, " ++ e₂) e₂) := by
  refine ⟨?_, ?_, ?_, ?_, ?_⟩
  · unfold Accounts.getAccountClient
    split
    · rename_i a h
      simp [Accounts.getAccountClient_rest_trace, h]
    · rename_i e h
      simp only [h]
      split <;> simp [Accounts.getAccountClient_rest_trace]
  · unfold Keys.getMasterKey
    split
    · rename_i a h
      simp [Keys.getMasterKey_rest_trace, h]
    · rename_i e h
      simp only [h]
      split <;> simp [Keys.getMasterKey_rest_trace]
  · intro e₁ e₂ h₁ h₂
    simp [Accounts.getAccountClient, h₁, h₂]
  · intro e₁ e₂ h₁ h₂
    simp [Keys.getMasterKey, h₁, h₂]
  · intro e₂
    exact ⟨"auth initialization failed, ".data, [], by simp [String.data_append]⟩

/-- C8, amended, at a provider whose two constructors fail: the environment constructor
is in the trace and the error carries the environment reason only. -/
theorem env_fallback_iff_cli_fails_witness :
    Call.authorizerFromEnv ∈ (Accounts.getAccountClient Accounts.noCredentials "acct1").2 ∧
    Call.authorizerFromEnv ∈ (Keys.getMasterKey Keys.noCredentials 1 "app1").2 ∧
    Accounts.getAccountClient Accounts.noCredentials "acct1"
      = (.returned Accounts.nilClient
          (some ("auth initialization failed, " ++ "env: no secret")),
          [.authorizerFromCLI, .authorizerFromEnv]) ∧
    Keys.getMasterKey Keys.noCredentials 1 "app1"
      = (some (.returned "" (some ("auth initialization failed, " ++ "env: no secret"))),
          [.authorizerFromCLI, .authorizerFromEnv]) :=
  have h := env_fallback_iff_cli_fails Accounts.noCredentials Keys.noCredentials 1
    "acct1" "app1"
  ⟨h.1.2 ⟨"cli: no session", rfl⟩, h.2.1.2 ⟨"cli: no session", rfl⟩,
   h.2.2.1 "cli: no session" "env: no secret" rfl rfl,
   h.2.2.2.1 "cli: no session" "env: no secret" rfl rfl⟩

/-! ## Environment credentials -/

theorem Tokens.check_first_unset (getenv : String → String) (pre post : List String)
    (v : String) (hpre : ∀ w ∈ pre, getenv w ≠ "") (hv : getenv v = "") :
    Tokens.maybeGetTokenFromEnv.check getenv (pre ++ v :: post)
      = some ("azure token from env failed, " ++ v ++ " is unset") := by
  induction pre with
  | nil => simp [Tokens.maybeGetTokenFromEnv.check, hv]
  | cons w ws ih =>
    have hw : getenv w ≠ "" := hpre w (by simp)
    simp [Tokens.maybeGetTokenFromEnv.check, hw, ih (fun x hx => hpre x (by simp [hx]))]

/-- C9, as stated, fails: in the environment where no variable is set,
`maybeGetTokenFromEnv` returns the error "azure token from env failed, AZURE_CLIENT_ID
is unset", which names neither `AZURE_CLIENT_SECRET`, `AZURE_TENANT_ID` nor
`AZURE_SUBSCRIPTION_ID`. -/
theorem env_error_names_one_variable :
    Tokens.maybeGetTokenFromEnv (fun _ => "")
        ⟨"https://management.azure.com/", "https://login.microsoftonline.com/"⟩
        (fun _ => .ok ⟨none, "token"⟩)
      = (.returned "" (some "azure token from env failed, AZURE_CLIENT_ID is unset"), []) ∧
    ¬ Mentions "azure token from env failed, AZURE_CLIENT_ID is unset"
        "AZURE_CLIENT_SECRET" ∧
    ¬ Mentions "azure token from env failed, AZURE_CLIENT_ID is unset"
        "AZURE_TENANT_ID" ∧
    ¬ Mentions "azure token from env failed, AZURE_CLIENT_ID is unset"
        "AZURE_SUBSCRIPTION_ID" := by
  decide

theorem Auth.setupHint_mentions :
    Mentions Auth.setupHint "AZURE_CLIENT_ID" ∧
    Mentions Auth.setupHint "AZURE_CLIENT_SECRET" ∧
    Mentions Auth.setupHint "AZURE_TENANT_ID" ∧
    Mentions Auth.setupHint "AZURE_SUBSCRIPTION_ID" :=
  ⟨⟨"Failed to get authorizer from environment, \n check to see if you have set the correct environment variables".data,
     ", AZURE_CLIENT_SECRET, AZURE_TENANT_ID, AZURE_SUBSCRIPTION_ID".data, rfl⟩,
   ⟨"Failed to get authorizer from environment, \n check to see if you have set the correct environment variablesAZURE_CLIENT_ID, ".data,
     ", AZURE_TENANT_ID, AZURE_SUBSCRIPTION_ID".data, rfl⟩,
   ⟨"Failed to get authorizer from environment, \n check to see if you have set the correct environment variablesAZURE_CLIENT_ID, AZURE_CLIENT_SECRET, ".data,
     ", AZURE_SUBSCRIPTION_ID".data, rfl⟩,
   ⟨"Failed to get authorizer from environment, \n check to see if you have set the correct environment variablesAZURE_CLIENT_ID, AZURE_CLIENT_SECRET, AZURE_TENANT_ID, ".data,
     [], rfl⟩⟩

/-- C9, amended: when one of `AZURE_CLIENT_ID`, `AZURE_CLIENT_SECRET`, `AZURE_TENANT_ID`
reads as empty, `maybeGetTokenFromEnv` returns the empty token and an error without
making any SDK call, and the error is "azure token from env failed, V is unset" for the
first such variable V in that order; `AZURE_SUBSCRIPTION_ID` does not occur in it. The
four names together are in the hint that `Setup` prints when
`auth.NewAuthorizerFromEnvironment` fails. -/
theorem maybeGetTokenFromEnv_names_first_unset (getenv : String → String)
    (PublicCloud : Environment)
    (spt : ClientCredentialsConfig → Except GoError Tokens.ServicePrincipalToken)
    (h : getenv "AZURE_CLIENT_ID" = "" ∨ getenv "AZURE_CLIENT_SECRET" = "" ∨
      getenv "AZURE_TENANT_ID" = "") :
    (∃ pre v post, Tokens.requiredEnv = pre ++ v :: post ∧ (∀ w ∈ pre, getenv w ≠ "") ∧
      getenv v = "" ∧
      Tokens.maybeGetTokenFromEnv getenv PublicCloud spt
        = (.returned "" (some ("azure token from env failed, " ++ v ++ " is unset")), []) ∧
      ¬ Mentions ("azure token from env failed, " ++ v ++ " is unset")
          "AZURE_SUBSCRIPTION_ID") ∧
    (∀ (a : Option Authorizer) (e : GoError),
      (Auth.Setup getenv (a, some e)).2 = [Auth.setupHint, e]) ∧
    Mentions Auth.setupHint "AZURE_CLIENT_ID" ∧
    Mentions Auth.setupHint "AZURE_CLIENT_SECRET" ∧
    Mentions Auth.setupHint "AZURE_TENANT_ID" ∧
    Mentions Auth.setupHint "AZURE_SUBSCRIPTION_ID" := by
  refine ⟨?_, fun _ _ => rfl, Auth.setupHint_mentions⟩
  by_cases h₁ : getenv "AZURE_CLIENT_ID" = ""
  · refine ⟨[], "AZURE_CLIENT_ID", ["AZURE_CLIENT_SECRET", "AZURE_TENANT_ID"], rfl,
      by simp, h₁, ?_, by decide⟩
    have e := Tokens.check_first_unset getenv [] ["AZURE_CLIENT_SECRET", "AZURE_TENANT_ID"]
      "AZURE_CLIENT_ID" (by simp) h₁
    simp only [Tokens.maybeGetTokenFromEnv, Tokens.requiredEnv]
    simp only [List.nil_append] at e
    rw [e]
  · by_cases h₂ : getenv "AZURE_CLIENT_SECRET" = ""
    · refine ⟨["AZURE_CLIENT_ID"], "AZURE_CLIENT_SECRET", ["AZURE_TENANT_ID"], rfl,
        by simpa using h₁, h₂, ?_, by decide⟩
      have e := Tokens.check_first_unset getenv ["AZURE_CLIENT_ID"] ["AZURE_TENANT_ID"]
        "AZURE_CLIENT_SECRET" (by simpa using h₁) h₂
      simp only [Tokens.maybeGetTokenFromEnv, Tokens.requiredEnv]
      simp only [List.singleton_append] at e
      rw [e]
    · have h₃ : getenv "AZURE_TENANT_ID" = "" := by tauto
      refine ⟨["AZURE_CLIENT_ID", "AZURE_CLIENT_SECRET"], "AZURE_TENANT_ID", [], rfl,
        by simpa using ⟨h₁, h₂⟩, h₃, ?_, by decide⟩
      have e := Tokens.check_first_unset getenv ["AZURE_CLIENT_ID", "AZURE_CLIENT_SECRET"] []
        "AZURE_TENANT_ID" (by simpa using ⟨h₁, h₂⟩) h₃
      simp only [Tokens.maybeGetTokenFromEnv, Tokens.requiredEnv]
      simp only [List.cons_append, List.nil_append] at e
      rw [e]

/-- C9, amended, in an environment that sets `AZURE_CLIENT_ID` alone. -/
theorem maybeGetTokenFromEnv_names_first_unset_witness :
    (Tokens.onlyClientID "AZURE_CLIENT_ID" = "" ∨
      Tokens.onlyClientID "AZURE_CLIENT_SECRET" = "" ∨
      Tokens.onlyClientID "AZURE_TENANT_ID" = "") ∧
    ∃ pre v post, Tokens.requiredEnv = pre ++ v :: post ∧
      (∀ w ∈ pre, Tokens.onlyClientID w ≠ "") ∧ Tokens.onlyClientID v = "" ∧
      Tokens.maybeGetTokenFromEnv Tokens.onlyClientID
          ⟨"https://management.azure.com/", "https://login.microsoftonline.com/"⟩
          (fun _ => .ok ⟨none, "token"⟩)
        = (.returned "" (some ("azure token from env failed, " ++ v ++ " is unset")), []) ∧
      ¬ Mentions ("azure token from env failed, " ++ v ++ " is unset")
          "AZURE_SUBSCRIPTION_ID" :=
  ⟨by decide,
   (maybeGetTokenFromEnv_names_first_unset Tokens.onlyClientID
      ⟨"https://management.azure.com/", "https://login.microsoftonline.com/"⟩
      (fun _ => .ok ⟨none, "token"⟩) (by decide)).1⟩

/-! ## Paged search -/

theorem Keys.scan_none_iff (name : String) (page : List Site) :
    Keys.findSite.scan name page = none
      ↔ ∀ site ∈ page, ∃ n, site.Name = some n ∧ n ≠ name := by
  induction page with
  | nil => simp [Keys.findSite.scan]
  | cons x xs ih =>
    unfold Keys.findSite.scan
    cases hN : x.Name with
    | none => simp [hN]
    | some n =>
      by_cases hq : n = name
      · simp [hN, hq]
      · simp [hN, hq, ih]

theorem Keys.scan_match (name : String) (pre post : List Site) (site : Site)
    (hpre : ∀ s ∈ pre, ∃ n, s.Name = some n ∧ n ≠ name) (hsite : site.Name = some name) :
    Keys.findSite.scan name (pre ++ site :: post) = some (.returned (some site) none) := by
  induction pre with
  | nil => simp [Keys.findSite.scan, hsite]
  | cons x xs ih =>
    obtain ⟨n, hn, hne⟩ := hpre x (by simp)
    simp [Keys.findSite.scan, hn, hne, ih (fun y hy => hpre y (by simp [hy]))]

theorem Keys.scan_some_ne (name : String) (page : List Site) (out : Outcome (Option Site))
    (h : Keys.findSite.scan name page = some out) (e : Option GoError) :
    out ≠ .returned none e := by
  induction page with
  | nil => simp [Keys.findSite.scan] at h
  | cons x xs ih =>
    unfold Keys.findSite.scan at h
    cases hN : x.Name with
    | none =>
      simp only [hN] at h
      cases h
      simp
    | some n =>
      simp only [hN] at h
      by_cases hq : n = name
      · simp only [hq, if_true] at h
        cases h
        simp
      · simp only [hq, if_false] at h
        exact ih h

theorem Keys.Enumerates.inv {σ : Type} {P : Keys.Pager σ} {apps : σ}
    {pages : List (List Site)} (h : Keys.Enumerates P apps pages) :
    ∃ rest, pages = P.Values apps :: rest ∧
      ((P.NotDone apps = false ∧ rest = []) ∨
        (P.NotDone apps = true ∧
          ∃ apps', P.NextWithContext apps = .ok apps' ∧ Keys.Enumerates P apps' rest)) := by
  cases h with
  | last _ done => exact ⟨[], rfl, Or.inl ⟨done, rfl⟩⟩
  | more _ apps' rest notDone next tail =>
    exact ⟨rest, rfl, Or.inr ⟨notDone, apps', next, tail⟩⟩

theorem Keys.loop_match {σ : Type} (P : Keys.Pager σ) (name : String)
    (pre post : List Site) (site : Site) (after : List (List Site))
    (hpre : ∀ s ∈ pre, ∃ n, s.Name = some n ∧ n ≠ name) (hsite : site.Name = some name)
    (before : List (List Site)) :
    ∀ (apps : σ) (fuel fetched : Nat),
      Keys.Enumerates P apps (before ++ (pre ++ site :: post) :: after) →
      (∀ page ∈ before, ∀ s ∈ page, ∃ n, s.Name = some n ∧ n ≠ name) →
      before.length + 1 ≤ fuel →
      Keys.findSite.loop P name fuel apps fetched
        = (some (.returned (some site) none), fetched + before.length) := by
  induction before with
  | nil =>
    intro apps fuel fetched henum _ hfuel
    obtain ⟨f, rfl⟩ : ∃ f, fuel = f + 1 := ⟨fuel - 1, by simp at hfuel; omega⟩
    obtain ⟨rest, hp, _⟩ := henum.inv
    simp only [List.nil_append, List.cons.injEq] at hp
    unfold Keys.findSite.loop
    rw [← hp.1, Keys.scan_match name pre post site hpre hsite]
    simp
  | cons b bs ih =>
    intro apps fuel fetched henum hbefore hfuel
    obtain ⟨f, rfl⟩ : ∃ f, fuel = f + 1 := ⟨fuel - 1, by simp at hfuel; omega⟩
    obtain ⟨rest, hp, hcase⟩ := henum.inv
    simp only [List.cons_append, List.cons.injEq] at hp
    have hscan : Keys.findSite.scan name (P.Values apps) = none := by
      rw [← hp.1]
      exact (Keys.scan_none_iff name b).2 (hbefore b (by simp))
    rcases hcase with ⟨_, hrest⟩ | ⟨notDone, apps', next, tail⟩
    · rw [hrest] at hp
      simp at hp
    · rw [← hp.2] at tail
      have ih' := ih apps' f (fetched + 1) tail
        (fun page hpage => hbefore page (by simp [hpage])) (by simp at hfuel; omega)
      unfold Keys.findSite.loop
      simp only [hscan, notDone, next, ih', List.length_cons]
      simp
      omega

theorem Keys.loop_not_found_iff {σ : Type} (P : Keys.Pager σ) (name : String) (apps : σ)
    (pages : List (List Site)) (henum : Keys.Enumerates P apps pages) :
    ∀ (fuel fetched k : Nat), pages.length ≤ fuel →
      (Keys.findSite.loop P name fuel apps fetched
          = (some (.returned none (some "site not found")), k)
        ↔ (∀ page ∈ pages, ∀ s ∈ page, ∃ n, s.Name = some n ∧ n ≠ name)
            ∧ k = fetched + (pages.length - 1)) := by
  induction henum with
  | last apps done =>
    intro fuel fetched k hfuel
    obtain ⟨f, rfl⟩ : ∃ f, fuel = f + 1 := ⟨fuel - 1, by simp at hfuel; omega⟩
    unfold Keys.findSite.loop
    cases hs : Keys.findSite.scan name (P.Values apps) with
    | some out =>
      have hne := Keys.scan_some_ne name _ out hs (some "site not found")
      have hnot : ¬ ∀ s ∈ P.Values apps, ∃ n, s.Name = some n ∧ n ≠ name := by
        intro hall
        rw [(Keys.scan_none_iff name _).2 hall] at hs
        cases hs
      simp only [Prod.mk.injEq, Option.some.injEq, List.mem_singleton, forall_eq]
      constructor
      · intro h
        exact absurd h.1 hne
      · intro h
        exact absurd h.1 hnot
    | none =>
      have hall := (Keys.scan_none_iff name _).1 hs
      simp only [done, Bool.not_false, if_true, Prod.mk.injEq, true_and, List.mem_singleton,
        forall_eq, List.length_singleton]
      constructor
      · intro h
        exact ⟨hall, by omega⟩
      · intro h
        omega
  | more apps apps' pages notDone next tail ih =>
    intro fuel fetched k hfuel
    obtain ⟨f, rfl⟩ : ∃ f, fuel = f + 1 := ⟨fuel - 1, by simp at hfuel; omega⟩
    have hpos : 0 < pages.length := by
      obtain ⟨rest, hp, _⟩ := tail.inv
      simp [hp]
    have ih' := ih f (fetched + 1) k (by simp at hfuel; omega)
    unfold Keys.findSite.loop
    cases hs : Keys.findSite.scan name (P.Values apps) with
    | some out =>
      have hne := Keys.scan_some_ne name _ out hs (some "site not found")
      have hnot : ¬ ∀ s ∈ P.Values apps, ∃ n, s.Name = some n ∧ n ≠ name := by
        intro hall
        rw [(Keys.scan_none_iff name _).2 hall] at hs
        cases hs
      simp only [Prod.mk.injEq, Option.some.injEq, List.mem_cons, forall_eq_or_imp]
      constructor
      · intro h
        exact absurd h.1 hne
      · intro h
        exact absurd h.1.1 hnot
    | none =>
      have hall := (Keys.scan_none_iff name _).1 hs
      have hstep : (if (!P.NotDone apps) = true then
            ((some (Outcome.returned (none : Option Site) (some "site not found")), fetched)
              : Option (Outcome (Option Site)) × Nat)
          else
            match P.NextWithContext apps with
            | .error err =>
              (some (.returned none (some ("failed fetch next page of web apps, " ++ err))),
                fetched + 1)
            | .ok apps' => Keys.findSite.loop P name f apps' (fetched + 1))
          = Keys.findSite.loop P name f apps' (fetched + 1) := by
        simp [notDone, next]
      simp only [hstep]
      rw [ih']
      simp only [List.mem_cons, forall_eq_or_imp, List.length_cons]
      constructor
      · rintro ⟨h₁, h₂⟩
        exact ⟨⟨hall, h₁⟩, by omega⟩
      · rintro ⟨⟨_, h₁⟩, h₂⟩
        exact ⟨h₁, by omega⟩

theorem Keys.loop_terminates {σ : Type} (P : Keys.Pager σ) (name : String) (apps : σ)
    (pages : List (List Site)) (henum : Keys.Enumerates P apps pages) :
    ∀ (fuel fetched : Nat), pages.length ≤ fuel →
      (Keys.findSite.loop P name fuel apps fetched).1 ≠ none := by
  induction henum with
  | last apps done =>
    intro fuel fetched hfuel
    obtain ⟨f, rfl⟩ : ∃ f, fuel = f + 1 := ⟨fuel - 1, by simp at hfuel; omega⟩
    unfold Keys.findSite.loop
    cases Keys.findSite.scan name (P.Values apps) <;> simp [done]
  | more apps apps' pages notDone next tail ih =>
    intro fuel fetched hfuel
    obtain ⟨f, rfl⟩ : ∃ f, fuel = f + 1 := ⟨fuel - 1, by simp at hfuel; omega⟩
    have ih' := ih f (fetched + 1) (by simp at hfuel; omega)
    unfold Keys.findSite.loop
    cases Keys.findSite.scan name (P.Values apps) with
    | some out => simp
    | none => simpa [notDone, next] using ih'

/-- C10, as stated, fails: on the single page whose first site has no name (a nil
`Name`) and whose second is named `api`, `findSite` with the query `api` panics on the
nil dereference; it does not return the site named `api`. -/
theorem findSite_nameless_site_before_match :
    Keys.Enumerates Keys.listPager Keys.namelessFirst Keys.namelessFirst ∧
    Keys.findSite Keys.listPager 1 (.ok Keys.namelessFirst) "api"
      = (some (.panicked "runtime error: invalid memory address or nil pointer dereference"),
          0) :=
  ⟨.last _ rfl, by decide⟩

/-- C10, amended: when the pager enumerates the finite page sequence `pages`, every fetch
succeeding, `findSite` run for at least `pages.length` pages terminates. If a site named
`name` is preceded, in page order and then in-page order, only by sites that carry
other names, `findSite` returns that site with a nil error after exactly as many
`NextWithContext` calls as pages stand before its page. It returns "site not found"
exactly when every site of every page carries a name other than `name`, and then after
`pages.length - 1` such calls, that is, once every page is scanned. -/
theorem findSite_returns_first_match {σ : Type} (P : Keys.Pager σ) (apps : σ)
    (pages : List (List Site)) (name : String) (fuel : Nat)
    (henum : Keys.Enumerates P apps pages) (hfuel : pages.length ≤ fuel) :
    (Keys.findSite P fuel (.ok apps) name).1 ≠ none ∧
    (∀ (before : List (List Site)) (pre : List Site) (site : Site) (post : List Site)
        (after : List (List Site)),
      pages = before ++ (pre ++ site :: post) :: after →
      (∀ page ∈ before, ∀ s ∈ page, ∃ n, s.Name = some n ∧ n ≠ name) →
      (∀ s ∈ pre, ∃ n, s.Name = some n ∧ n ≠ name) →
      site.Name = some name →
      Keys.findSite P fuel (.ok apps) name
        = (some (.returned (some site) none), before.length)) ∧
    (∀ k, Keys.findSite P fuel (.ok apps) name
          = (some (.returned none (some "site not found")), k)
        ↔ (∀ page ∈ pages, ∀ s ∈ page, ∃ n, s.Name = some n ∧ n ≠ name)
            ∧ k = pages.length - 1) := by
  refine ⟨?_, ?_, ?_⟩
  · exact Keys.loop_terminates P name apps pages henum fuel 0 hfuel
  · intro before pre site post after hp hbefore hpre hsite
    subst hp
    have h := Keys.loop_match P name pre post site after hpre hsite before apps fuel 0
      henum hbefore (by simp at hfuel; omega)
    simpa [Keys.findSite] using h
  · intro k
    have h := Keys.loop_not_found_iff P name apps pages henum fuel 0 k hfuel
    simpa [Keys.findSite] using h

/-- C10, amended, on three pages, the query `api` first met on the second: the first of
the two sites named `api` is returned, after one `NextWithContext` call. -/
theorem findSite_returns_first_match_witness :
    Keys.Enumerates Keys.listPager Keys.threePages Keys.threePages ∧
    Keys.threePages.length ≤ 3 ∧
    Keys.findSite Keys.listPager 3 (.ok Keys.threePages) "api"
      = (some (.returned (some ⟨some "api", some "rg-b"⟩) none), 1) :=
  have henum : Keys.Enumerates Keys.listPager Keys.threePages Keys.threePages :=
    .more _ _ _ rfl rfl (.more _ _ _ rfl rfl (.last _ rfl))
  ⟨henum, by decide,
   (findSite_returns_first_match Keys.listPager Keys.threePages Keys.threePages "api" 3
      henum (by decide)).2.1
      [[⟨some "web1", some "rg-a"⟩, ⟨some "web2", some "rg-a"⟩]] []
      ⟨some "api", some "rg-b"⟩ [⟨some "api", some "rg-c"⟩] [[⟨some "late", some "rg-d"⟩]]
      rfl (by simp) (by simp) rfl⟩

end AzureHelpers
